import Mathlib

/-!
Verification of the help-rendering engine of `clap-help` (src/printer.rs),
as a shallow embedding in Lean 4.

The embedding follows the Rust source function by function:
* `StylePreset` with `all_names`, `from_name`, `name`, `is_light`,
  `family`, `variant` (src/printer.rs lines 104-319);
* the variable-model builder `make_expander` (lines 467-602), over an
  explicit `Cmd`/`Arg` data model mirroring the clap data consumed there;
* the two printing modes `print_help_full_width` (lines 628-634) and
  `print_help_content_width` (lines 636-659).

The template-expansion engine and the styled-text measurement live in the
external `minimad`/`termimad` crates, not in this repository; those parts
are modelled from the spec (each such definition carries a doc comment
starting with `Modelled from the spec:`).
-/

namespace ClapHelp

/-- The ten style presets (src/printer.rs, `enum StylePreset`). -/
inductive StylePreset where
  | CatppuccinLatte
  | CatppuccinFrappe
  | CatppuccinMacchiato
  | CatppuccinMocha
  | RosePineMain
  | RosePineMoon
  | RosePineDawn
  | KanagawaWave
  | KanagawaDragon
  | KanagawaLotus
  deriving DecidableEq, Repr

namespace StylePreset

/-- `StylePreset::all_names` (src/printer.rs lines 120-133). -/
def all_names : List String :=
  [ "catppuccin-latte"
  , "catppuccin-frappe"
  , "catppuccin-macchiato"
  , "catppuccin-mocha"
  , "rose-pine-main"
  , "rose-pine-moon"
  , "rose-pine-dawn"
  , "kanagawa-wave"
  , "kanagawa-dragon"
  , "kanagawa-lotus" ]

/-- Rust's `str::to_lowercase`, embedded as a character-wise lowercase map
(the preset identifiers are pure ASCII, where the two functions agree). -/
def strToLower (s : String) : String :=
  ⟨s.data.map Char.toLower⟩

/-- `StylePreset::from_name` (src/printer.rs lines 136-150): the Rust code
matches `name.to_lowercase().as_str()` against the ten literals, returning
`None` on anything else. -/
def from_name (name : String) : Option StylePreset :=
  let n := strToLower name
  if n = "catppuccin-latte" then some .CatppuccinLatte
  else if n = "catppuccin-frappe" then some .CatppuccinFrappe
  else if n = "catppuccin-macchiato" then some .CatppuccinMacchiato
  else if n = "catppuccin-mocha" then some .CatppuccinMocha
  else if n = "rose-pine-main" then some .RosePineMain
  else if n = "rose-pine-moon" then some .RosePineMoon
  else if n = "rose-pine-dawn" then some .RosePineDawn
  else if n = "kanagawa-wave" then some .KanagawaWave
  else if n = "kanagawa-dragon" then some .KanagawaDragon
  else if n = "kanagawa-lotus" then some .KanagawaLotus
  else none

/-- `StylePreset::name` (src/printer.rs lines 153-166). -/
def name : StylePreset → String
  | .CatppuccinLatte => "catppuccin-latte"
  | .CatppuccinFrappe => "catppuccin-frappe"
  | .CatppuccinMacchiato => "catppuccin-macchiato"
  | .CatppuccinMocha => "catppuccin-mocha"
  | .RosePineMain => "rose-pine-main"
  | .RosePineMoon => "rose-pine-moon"
  | .RosePineDawn => "rose-pine-dawn"
  | .KanagawaWave => "kanagawa-wave"
  | .KanagawaDragon => "kanagawa-dragon"
  | .KanagawaLotus => "kanagawa-lotus"

/-- `StylePreset::is_light` (src/printer.rs lines 285-290). -/
def is_light : StylePreset → Bool
  | .CatppuccinLatte => true
  | .RosePineDawn => true
  | .KanagawaLotus => true
  | _ => false

/-- `StylePreset::family` (src/printer.rs lines 293-302). -/
def family : StylePreset → String
  | .CatppuccinLatte | .CatppuccinFrappe | .CatppuccinMacchiato
  | .CatppuccinMocha => "Catppuccin"
  | .RosePineMain | .RosePineMoon | .RosePineDawn => "Rose Pine"
  | .KanagawaWave | .KanagawaDragon | .KanagawaLotus => "Kanagawa"

/-- `StylePreset::variant` (src/printer.rs lines 305-318). -/
def variant : StylePreset → String
  | .CatppuccinLatte => "Latte"
  | .CatppuccinFrappe => "Frappé"
  | .CatppuccinMacchiato => "Macchiato"
  | .CatppuccinMocha => "Mocha"
  | .RosePineMain => "Main"
  | .RosePineMoon => "Moon"
  | .RosePineDawn => "Dawn"
  | .KanagawaWave => "Wave"
  | .KanagawaDragon => "Dragon"
  | .KanagawaLotus => "Lotus"

/-- All ten presets, in declaration order. -/
def allPresets : List StylePreset :=
  [ .CatppuccinLatte, .CatppuccinFrappe, .CatppuccinMacchiato
  , .CatppuccinMocha, .RosePineMain, .RosePineMoon, .RosePineDawn
  , .KanagawaWave, .KanagawaDragon, .KanagawaLotus ]

end StylePreset

/-- clap's `ArgAction`, as consumed by `make_expander`: `Set` and `Append`
store values, `SetTrue`/`SetFalse` are boolean flags, `Count` counts
occurrences. -/
inductive ArgAction where
  | set
  | append
  | setTrue
  | setFalse
  | count
  deriving DecidableEq, Repr

/-- clap's `ArgAction::takes_values`: true exactly for `Set` and
`Append`. -/
def ArgAction.takes_values : ArgAction → Bool
  | .set => true
  | .append => true
  | _ => false

/-- The slice of clap's `Arg` that `make_expander` reads: short/long flag,
value names, help, hidden/required/last flags, possible values, default
values, action, env-var binding. -/
structure Arg where
  short : Option Char := none
  long : Option String := none
  value_names : List String := []
  help : Option String := none
  hide : Bool := false
  required : Bool := false
  last : Bool := false
  possible_values : List String := []
  default_values : List String := []
  action : ArgAction := .set
  env_var : Option String := none
  deriving DecidableEq, Repr

/-- clap's `Arg::is_positional`: an argument with neither short nor long
flag. -/
def Arg.is_positional (a : Arg) : Bool :=
  a.short.isNone && a.long.isNone

/-- The slice of a clap subcommand read by `make_expander`: name and
about text. -/
structure Subcommand where
  name : String
  about : Option String := none
  deriving DecidableEq, Repr

/-- The slice of clap's `Command` that `make_expander` reads. -/
structure Cmd where
  name : String
  bin_name : Option String := none
  author : Option String := none
  version : Option String := none
  about : Option String := none
  after_help : Option String := none
  args : List Arg := []
  subcommands : List Subcommand := []
  deriving DecidableEq, Repr

/-- clap's `Command::get_positionals`: the arguments without flags, in
declaration order. -/
def Cmd.get_positionals (cmd : Cmd) : List Arg :=
  cmd.args.filter (fun a => a.is_positional)

/-- The options iterator of `make_expander` (src/printer.rs lines
488-491): arguments that are not hidden and have at least one of a short
or long flag. -/
def Cmd.options (cmd : Cmd) : List Arg :=
  (cmd.args.filter (fun a => !a.hide)).filter
    (fun a => a.short.isSome || a.long.isSome)

/-- A value stored in the variable environment: its text and whether it
was set with `set_md` (markdown-flagged) rather than `set`. -/
structure VarVal where
  value : String
  md : Bool := false
  deriving DecidableEq, Repr

/-- Modelled from the spec: the variable environment built by the
Variable Model Builder (minimad's `OwningTemplateExpander` is external to
this repository).  `default` is the text substituted for missing
variables (`set_default`); `vars` are the top-level scalars in insertion
order; `subs` are the repeating-group sub-environments in creation order,
each tagged with its group name. -/
structure Expander where
  default : Option String := none
  vars : List (String × VarVal) := []
  subs : List (String × List (String × VarVal)) := []
  deriving DecidableEq, Repr

/-- Look a variable's text up in an (ordered) binding list. -/
def lookupVar (l : List (String × VarVal)) (n : String) : Option String :=
  (l.lookup n).map VarVal.value

/-- The `flags-compact` entry of an option sub-environment
(src/printer.rs lines 499-505). -/
def flagsSeg (a : Arg) : List (String × VarVal) :=
  let flagsCompact :=
    match a.short, a.long with
    | some s, some l => "-" ++ s.toString ++ ", --" ++ l
    | none, some l => "    --" ++ l
    | some s, none => "-" ++ s.toString
    | none, none => ""
  [("flags-compact", ⟨flagsCompact, false⟩)]

/-- The `short` entry, set when a short flag exists (src/printer.rs lines
507-509). -/
def shortSeg (a : Arg) : List (String × VarVal) :=
  match a.short with
  | some s => [("short", ⟨"-" ++ s.toString, false⟩)]
  | none => []

/-- The `long` entry, set when a long flag exists (src/printer.rs lines
510-512). -/
def longSeg (a : Arg) : List (String × VarVal) :=
  match a.long with
  | some l => [("long", ⟨"--" ++ l, false⟩)]
  | none => []

/-- The markdown-flagged `help` entry, set when help text exists
(src/printer.rs lines 514-516). -/
def helpSeg (a : Arg) : List (String × VarVal) :=
  match a.help with
  | some h => [("help", ⟨h, true⟩)]
  | none => []

/-- The value-name entries, set when the action consumes a value and a
value name is declared (src/printer.rs lines 518-532). -/
def valueSeg (a : Arg) : List (String × VarVal) :=
  if a.action.takes_values then
    match a.value_names.head? with
    | some n =>
      let braced := "<" ++ n ++ ">"
      [("value", ⟨n, false⟩), ("value-braced", ⟨braced, false⟩)]
      ++ (if a.short.isSome then
            [("value-short-braced", ⟨braced, false⟩),
             ("value-short", ⟨n, false⟩)]
          else [])
      ++ (if a.long.isSome then
            [("value-long-braced", ⟨braced, false⟩),
             ("value-long", ⟨n, false⟩)]
          else [])
    | none => []
  else []

/-- The markdown-flagged `details-env` entry, set when an env-var binding
exists (src/printer.rs lines 534-539). -/
def envSeg (a : Arg) : List (String × VarVal) :=
  match a.env_var with
  | some v =>
    [("details-env", ⟨"\n    * *Environment*: `" ++ v ++ "`", true⟩)]
  | none => []

/-- The possible-values entries, set when possible values exist
(src/printer.rs lines 541-555): back-tick-quoted, comma-joined, order
preserved. -/
def possibleSeg (a : Arg) : List (String × VarVal) :=
  if a.possible_values = [] then []
  else
    let values := a.possible_values.map (fun v => "`" ++ v ++ "`")
    let joined := String.intercalate ", " values
    [("possible_values",
       ⟨" Possible values: [" ++ joined ++ "]", true⟩),
     ("details-possible-values",
       ⟨"\n    * *Possible values*: " ++ joined, true⟩)]

/-- The default-value entries (src/printer.rs lines 557-566): set only
when a default value exists and the action is `Set` or `Append`. -/
def defaultSeg (a : Arg) : List (String × VarVal) :=
  match a.default_values.head? with
  | some d =>
    if a.action = .set ∨ a.action = .append then
      [("default", ⟨" Default: `" ++ d ++ "`", true⟩),
       ("details-default", ⟨"\n    * *Default*: `" ++ d ++ "`", true⟩)]
    else []
  | none => []

/-- The sub-environment built for one option argument (src/printer.rs
lines 493-567), entries in the order the source sets them. -/
def optionSubEnv (a : Arg) : List (String × VarVal) :=
  flagsSeg a ++ shortSeg a ++ longSeg a ++ helpSeg a ++ valueSeg a
    ++ envSeg a ++ possibleSeg a ++ defaultSeg a

/-- One step of the usage-fragment accumulation over positionals
(src/printer.rs lines 570-584): a positional without a declared value
name is skipped; otherwise a space, an opening bracket if not required,
`"-- "` if flagged last, the value name, and a closing bracket if not
required are appended. -/
def positionalStep (acc : String) (a : Arg) : String :=
  match a.value_names.head? with
  | none => acc
  | some key =>
    let acc1 := acc ++ " "
    let acc2 := if !a.required then acc1 ++ "[" else acc1
    let acc3 := if a.last then acc2 ++ "-- " else acc2
    let acc4 := acc3 ++ key
    if !a.required then acc4 ++ "]" else acc4

/-- The `positional-args` usage fragment (src/printer.rs lines 569-591). -/
def positional_args (ps : List Arg) : String :=
  ps.foldl positionalStep ""

/-- The sub-environment built for one positional argument with declared
value name `key` (src/printer.rs lines 585-589): `key`, and `help` as
plain text when present. -/
def positionalSubEnv (a : Arg) (key : String) : List (String × VarVal) :=
  [("key", ⟨key, false⟩)]
  ++ (match a.help with
      | some h => [("help", ⟨h, false⟩)]
      | none => [])

/-- The "positional-lines" sub-environments, one per positional with a
declared value name (src/printer.rs lines 570-590). -/
def positionalLines (ps : List Arg) : List (List (String × VarVal)) :=
  ps.filterMap (fun a => (a.value_names.head?).map (positionalSubEnv a))

/-- The sub-environment built for one subcommand (src/printer.rs lines
593-599): `sub-name`, and markdown-flagged `sub-about` when present. -/
def subcommandSubEnv (c : Subcommand) : List (String × VarVal) :=
  [("sub-name", ⟨c.name, false⟩)]
  ++ (match c.about with
      | some ab => [("sub-about", ⟨ab, true⟩)]
      | none => [])

/-- `Printer::make_expander` (src/printer.rs lines 467-602): the variable
model built from a command description.  Scalars in the order the source
sets them; group sub-environments in creation order (options, then
positionals, then subcommands). -/
def make_expander (cmd : Cmd) : Expander :=
  { default := some ""
  , vars :=
      [("name", ⟨cmd.bin_name.getD cmd.name, false⟩)]
      ++ (match cmd.author with
          | some a => [("author", ⟨a, false⟩)]
          | none => [])
      ++ (match cmd.version with
          | some v => [("version", ⟨v, false⟩)]
          | none => [])
      ++ (match cmd.about with
          | some ab => [("about", ⟨ab, true⟩)]
          | none => [])
      ++ (match cmd.after_help with
          | some ah => [("after_help", ⟨ah, true⟩)]
          | none => [])
      ++ [("positional-args", ⟨positional_args cmd.get_positionals, false⟩)]
  , subs :=
      (cmd.options.map (fun a => ("option-lines", optionSubEnv a)))
      ++ (positionalLines cmd.get_positionals).map
          (fun e => ("positional-lines", e))
      ++ (cmd.subcommands.map (fun c => ("subcommand-lines", subcommandSubEnv c))) }

/-- Modelled from the spec: an inline template element — literal text or
a scalar reference `${name}` (minimad's template language is external to
this repository). -/
inductive Inline where
  | lit (s : String)
  | var (n : String)
  deriving DecidableEq, Repr

/-- Modelled from the spec: a top-level template element — literal text,
a scalar reference, or a repeating block `${groupName body}` whose body is
expanded once per sub-environment of the group. -/
inductive TItem where
  | lit (s : String)
  | var (n : String)
  | group (g : String) (body : List Inline)
  deriving DecidableEq, Repr

/-- Modelled from the spec: a template is a sequence of elements with one
level of repetition. -/
abbrev Template := List TItem

/-- The sub-environments stored under group name `g`, in creation
order. -/
def groupSubs (e : Expander) (g : String) : List (List (String × VarVal)) :=
  (e.subs.filter (fun p => p.1 == g)).map Prod.snd

/-- Modelled from the spec: scalar resolution — a name is looked up in
the current sub-environment first, then in the outer environment, and a
name absent from both renders as the default text (`set_default`, empty
for this printer), never an error. -/
def resolve (e : Expander) (sub : List (String × VarVal)) (n : String) : String :=
  match lookupVar sub n with
  | some v => v
  | none =>
    match lookupVar e.vars n with
    | some v => v
    | none => e.default.getD ""

/-- Modelled from the spec: expansion of an inline element inside a
repeating block, against the block's sub-environment with fallback to the
outer environment. -/
def expandInline (e : Expander) (sub : List (String × VarVal)) : Inline → String
  | .lit s => s
  | .var n => resolve e sub n

/-- Modelled from the spec: the repetitions of one repeating block — the
body expanded once per sub-environment of the group, in order; a missing
group yields zero repetitions. -/
def expandGroup (e : Expander) (g : String) (body : List Inline) : List String :=
  (groupSubs e g).map (fun sub => String.join (body.map (expandInline e sub)))

/-- Modelled from the spec: expansion of one top-level template
element. -/
def expandItem (e : Expander) : TItem → String
  | .lit s => s
  | .var n => resolve e [] n
  | .group g body => String.join (expandGroup e g body)

/-- Modelled from the spec: expansion of a whole template against the
environment — pure, total, never failing. -/
def expandTemplate (e : Expander) (t : Template) : String :=
  String.join (t.map (expandItem e))

/-- Replacement of one scalar reference by the empty literal, inside a
repeating block. -/
def substInline (v : String) : Inline → Inline
  | .lit s => .lit s
  | .var n => if n = v then .lit "" else .var n

/-- Replacement of one scalar reference by the empty literal, in a
top-level template element. -/
def substItem (v : String) : TItem → TItem
  | .lit s => .lit s
  | .var n => if n = v then .lit "" else .var n
  | .group g body => .group g (body.map (substInline v))

/-- The template with every reference to variable `v` replaced by the
empty string. -/
def substTemplate (v : String) (t : Template) : Template :=
  t.map (substItem v)

/-- A concrete example environment: one scalar, one option line. -/
def egExpander : Expander :=
  { default := some ""
  , vars := [("name", ⟨"prog", false⟩)]
  , subs := [("option-lines", [("short", ⟨"-x", false⟩)])] }

/-- A concrete example template referencing a variable (`missing`)
absent from `egExpander`, both at top level and inside a repeating
block. -/
def egTemplate : Template :=
  [ .lit "Usage: ", .var "name", .var "missing"
  , .group "option-lines" [.lit " ", .var "short", .var "missing"] ]

/-- `Printer::print_help_full_width` (src/printer.rs lines 628-634): walk
the template keys in order and print each key's template immediately when
the mapping has an entry for it.  The result lists the templates printed,
in print order; the `HashMap` is modelled as an association list with
first-match lookup. -/
def print_help_full_width {T : Type} (keys : List String)
    (templates : List (String × T)) : List T :=
  keys.foldl
    (fun acc k =>
      match templates.lookup k with
      | some t => acc ++ [t]
      | none => acc)
    []

/-- Modelled from the spec: termimad's `FmtText` — a styled block wrapped
to a width cap.  `content_width` is the block's natural (unwrapped)
content width capped at the width it was measured at; `rendering_width`
is the width at which the block is finally printed
(`set_rendering_width`). -/
structure FmtText where
  content_width : Nat
  rendering_width : Nat
  deriving DecidableEq, Repr

/-- Modelled from the spec: `FmtText::from_text` over a block of natural
content width `natural`, measured at width cap `width`: the measured
content width is `min natural width`, and before `set_rendering_width`
the block renders at that measured width. -/
def fmtText_from_text (natural : Nat) (width : Nat) : FmtText :=
  { content_width := min natural width
  , rendering_width := min natural width }

/-- `Printer::print_help_content_width` (src/printer.rs lines 636-659):
cap the terminal width by `max_width` when set; expand each key's
template (keys without an entry skipped) into a block measured at that
width; take the maximum of all blocks' content widths; re-render every
block at exactly that unified width and print them in order.  The result
lists the printed blocks in print order; the templates' expansion and
measurement (external termimad code) is abstracted by each template's
natural content width `naturalWidth`. -/
def print_help_content_width {T : Type} (termWidth : Nat)
    (maxWidth : Option Nat) (keys : List String)
    (templates : List (String × T)) (naturalWidth : T → Nat) : List FmtText :=
  let width :=
    match maxWidth with
    | some m => min termWidth m
    | none => termWidth
  let texts :=
    (keys.filterMap (fun k => templates.lookup k)).map
      (fun t => fmtText_from_text (naturalWidth t) width)
  let content_width := texts.foldl (fun cw text => max cw text.content_width) 0
  texts.map (fun text => { text with rendering_width := content_width })

/-- Modelled from the spec: in full-width mode each block is printed
immediately at the terminal width, so it occupies its natural content
width capped at the terminal width, independent of the other blocks. -/
def print_help_full_width_widths {T : Type} (termWidth : Nat)
    (keys : List String) (templates : List (String × T))
    (naturalWidth : T → Nat) : List Nat :=
  (print_help_full_width keys templates).map
    (fun t => min (naturalWidth t) termWidth)

end ClapHelp

namespace ClapHelp

open StylePreset

/-- Every preset occurs in `allPresets`. -/
theorem mem_allPresets (p : StylePreset) : p ∈ allPresets := by
  cases p <;> decide

/-- C8: For every preset identifier `id` listed by `all_names`, and for
every case variant `s` of `id` (any string whose lowercasing is `id`),
`from_name s` returns some preset whose `name` is exactly the canonical
lowercase-hyphenated `id`: lookup is case-insensitive and round-trips
losslessly. -/
theorem from_name_roundtrip (id : String) (hid : id ∈ all_names)
    (s : String) (hs : strToLower s = id) :
    ∃ p : StylePreset, from_name s = some p ∧ p.name = id := by
  simp [all_names] at hid
  rcases hid with h | h | h | h | h | h | h | h | h | h <;> subst h
  · exact ⟨.CatppuccinLatte, by unfold from_name; rw [hs]; decide, rfl⟩
  · exact ⟨.CatppuccinFrappe, by unfold from_name; rw [hs]; decide, rfl⟩
  · exact ⟨.CatppuccinMacchiato, by unfold from_name; rw [hs]; decide, rfl⟩
  · exact ⟨.CatppuccinMocha, by unfold from_name; rw [hs]; decide, rfl⟩
  · exact ⟨.RosePineMain, by unfold from_name; rw [hs]; decide, rfl⟩
  · exact ⟨.RosePineMoon, by unfold from_name; rw [hs]; decide, rfl⟩
  · exact ⟨.RosePineDawn, by unfold from_name; rw [hs]; decide, rfl⟩
  · exact ⟨.KanagawaWave, by unfold from_name; rw [hs]; decide, rfl⟩
  · exact ⟨.KanagawaDragon, by unfold from_name; rw [hs]; decide, rfl⟩
  · exact ⟨.KanagawaLotus, by unfold from_name; rw [hs]; decide, rfl⟩

/-- Witness for C8 at a concrete mixed-case input. -/
theorem from_name_roundtrip_witness :
    ∃ p : StylePreset,
      from_name "Catppuccin-MOCHA" = some p ∧ p.name = "catppuccin-mocha" :=
  from_name_roundtrip "catppuccin-mocha" (by decide)
    "Catppuccin-MOCHA" (by decide)

/-- C9: For every string whose lowercasing is none of the ten preset
identifiers, `from_name` returns `none`: no default preset is substituted
on failed lookup. -/
theorem from_name_unknown_none (s : String) (h : strToLower s ∉ all_names) :
    from_name s = none := by
  simp only [all_names, List.mem_cons, List.mem_singleton, not_or] at h
  obtain ⟨h1, h2, h3, h4, h5, h6, h7, h8, h9, h10⟩ := h
  simp [from_name, h1, h2, h3, h4, h5, h6, h7, h8, h9, h10]

/-- Witness for C9 at the concrete non-preset string "gruvbox". -/
theorem from_name_unknown_none_witness : from_name "gruvbox" = none :=
  from_name_unknown_none "gruvbox" (by decide)

/-- C10: `is_light` is true for exactly `CatppuccinLatte`, `RosePineDawn`
and `KanagawaLotus` (three of the ten presets) and false for the other
seven, and `family` partitions the ten presets into "Catppuccin" (four),
"Rose Pine" (three) and "Kanagawa" (three); both are pure functions of the
enum tag, and `allPresets` is the complete enumeration. -/
theorem is_light_family_partition :
    (∀ p : StylePreset, p ∈ allPresets) ∧
    allPresets.filter (fun p => p.is_light)
      = [.CatppuccinLatte, .RosePineDawn, .KanagawaLotus] ∧
    (allPresets.filter (fun p => p.is_light)).length = 3 ∧
    (allPresets.filter (fun p => !p.is_light)).length = 7 ∧
    allPresets.filter (fun p => p.family == "Catppuccin")
      = [.CatppuccinLatte, .CatppuccinFrappe, .CatppuccinMacchiato,
         .CatppuccinMocha] ∧
    allPresets.filter (fun p => p.family == "Rose Pine")
      = [.RosePineMain, .RosePineMoon, .RosePineDawn] ∧
    allPresets.filter (fun p => p.family == "Kanagawa")
      = [.KanagawaWave, .KanagawaDragon, .KanagawaLotus] ∧
    (∀ p : StylePreset,
      p.family = "Catppuccin" ∨ p.family = "Rose Pine" ∨
      p.family = "Kanagawa") :=
  ⟨mem_allPresets, by decide, by decide, by decide, by decide, by decide,
   by decide, fun p => by cases p <;> simp [family]⟩

/-- Association-list lookup distributes over concatenation: the first
list wins when it binds the key. -/
theorem lookup_append {β : Type} (k : String) (l₁ l₂ : List (String × β)) :
    (l₁ ++ l₂).lookup k = ((l₁.lookup k).or (l₂.lookup k)) := by
  induction l₁ with
  | nil => simp [List.lookup]
  | cons p t ih =>
    rcases p with ⟨k₁, v⟩
    simp only [List.cons_append, List.lookup]
    cases h : k == k₁ <;> simp [h, ih]

/-- `flagsSeg` binds only `flags-compact`. -/
theorem flagsSeg_lookup_none (a : Arg) (k : String)
    (h : (k == "flags-compact") = false) :
    (flagsSeg a).lookup k = none := by
  simp [flagsSeg, List.lookup, h]

/-- `shortSeg` binds only `short`. -/
theorem shortSeg_lookup_none (a : Arg) (k : String)
    (h : (k == "short") = false) :
    (shortSeg a).lookup k = none := by
  unfold shortSeg
  cases a.short <;> simp [List.lookup, h]

/-- `longSeg` binds only `long`. -/
theorem longSeg_lookup_none (a : Arg) (k : String)
    (h : (k == "long") = false) :
    (longSeg a).lookup k = none := by
  unfold longSeg
  cases a.long <;> simp [List.lookup, h]

/-- `helpSeg` binds only `help`. -/
theorem helpSeg_lookup_none (a : Arg) (k : String)
    (h : (k == "help") = false) :
    (helpSeg a).lookup k = none := by
  unfold helpSeg
  cases a.help <;> simp [List.lookup, h]

/-- `valueSeg` binds only the six value-name keys. -/
theorem valueSeg_lookup_none (a : Arg) (k : String)
    (h1 : (k == "value") = false)
    (h2 : (k == "value-braced") = false)
    (h3 : (k == "value-short-braced") = false)
    (h4 : (k == "value-short") = false)
    (h5 : (k == "value-long-braced") = false)
    (h6 : (k == "value-long") = false) :
    (valueSeg a).lookup k = none := by
  unfold valueSeg
  cases htv : a.action.takes_values with
  | false => simp
  | true =>
    cases hv : a.value_names.head? with
    | none => simp
    | some n =>
      cases hs : a.short.isSome <;> cases hl : a.long.isSome <;>
        simp [hs, hl, List.lookup, lookup_append, h1, h2, h3, h4, h5, h6]

/-- `envSeg` binds only `details-env`. -/
theorem envSeg_lookup_none (a : Arg) (k : String)
    (h : (k == "details-env") = false) :
    (envSeg a).lookup k = none := by
  unfold envSeg
  cases a.env_var <;> simp [List.lookup, h]

/-- `possibleSeg` binds only the two possible-values keys. -/
theorem possibleSeg_lookup_none (a : Arg) (k : String)
    (h1 : (k == "possible_values") = false)
    (h2 : (k == "details-possible-values") = false) :
    (possibleSeg a).lookup k = none := by
  unfold possibleSeg
  by_cases hp : a.possible_values = [] <;> simp [hp, List.lookup, h1, h2]

/-- Looking up the default-annotation keys in a full option
sub-environment reaches the default segment. -/
theorem optionSubEnv_lookup_default (a : Arg) :
    (optionSubEnv a).lookup "default"
      = (defaultSeg a).lookup "default" ∧
    (optionSubEnv a).lookup "details-default"
      = (defaultSeg a).lookup "details-default" := by
  constructor
  · simp [optionSubEnv, lookup_append,
      flagsSeg_lookup_none a "default" (by decide),
      shortSeg_lookup_none a "default" (by decide),
      longSeg_lookup_none a "default" (by decide),
      helpSeg_lookup_none a "default" (by decide),
      valueSeg_lookup_none a "default" (by decide) (by decide) (by decide)
        (by decide) (by decide) (by decide),
      envSeg_lookup_none a "default" (by decide),
      possibleSeg_lookup_none a "default" (by decide) (by decide)]
  · simp [optionSubEnv, lookup_append,
      flagsSeg_lookup_none a "details-default" (by decide),
      shortSeg_lookup_none a "details-default" (by decide),
      longSeg_lookup_none a "details-default" (by decide),
      helpSeg_lookup_none a "details-default" (by decide),
      valueSeg_lookup_none a "details-default" (by decide) (by decide)
        (by decide) (by decide) (by decide) (by decide),
      envSeg_lookup_none a "details-default" (by decide),
      possibleSeg_lookup_none a "details-default" (by decide) (by decide)]

/-- C3: The `flags-compact` variable emitted into an option
sub-environment is `"-x, --longname"` when both flags exist,
`"    --longname"` (exactly four leading spaces) when only the long flag
exists, `"-x"` when only the short flag exists, and `""` when neither
exists. -/
theorem flags_compact_cases (a : Arg) (x : Char) (l : String) :
    (a.short = some x → a.long = some l →
      lookupVar (optionSubEnv a) "flags-compact"
        = some ("-" ++ x.toString ++ ", --" ++ l)) ∧
    (a.short = none → a.long = some l →
      lookupVar (optionSubEnv a) "flags-compact" = some ("    --" ++ l)) ∧
    (a.short = some x → a.long = none →
      lookupVar (optionSubEnv a) "flags-compact"
        = some ("-" ++ x.toString)) ∧
    (a.short = none → a.long = none →
      lookupVar (optionSubEnv a) "flags-compact" = some "") := by
  refine ⟨?_, ?_, ?_, ?_⟩ <;> intro h1 h2 <;>
    simp [optionSubEnv, flagsSeg, lookupVar, lookup_append, List.lookup,
      h1, h2]

/-- Witness for C3: the four flag shapes at concrete arguments. -/
theorem flags_compact_cases_witness :
    lookupVar (optionSubEnv { short := some 'x', long := some "longname" })
        "flags-compact" = some "-x, --longname" ∧
    lookupVar (optionSubEnv { long := some "longname" })
        "flags-compact" = some "    --longname" ∧
    lookupVar (optionSubEnv { short := some 'x' })
        "flags-compact" = some "-x" ∧
    lookupVar (optionSubEnv ({} : Arg)) "flags-compact" = some "" := by
  refine ⟨?_, ?_, ?_, ?_⟩
  · have h := (flags_compact_cases
      { short := some 'x', long := some "longname" } 'x' "longname").1
    simpa using h rfl rfl
  · have h := (flags_compact_cases
      { long := some "longname" } 'x' "longname").2.1
    simpa using h rfl rfl
  · have h := (flags_compact_cases { short := some 'x' } 'x' "longname").2.2.1
    simpa using h rfl rfl
  · have h := (flags_compact_cases ({} : Arg) 'x' "longname").2.2.2
    simpa using h rfl rfl

/-- The usage-fragment step appends the positional's contribution to the
accumulator. -/
theorem positionalStep_some (acc : String) (a : Arg) (key : String)
    (h : a.value_names.head? = some key) :
    positionalStep acc a
      = acc ++ " " ++ (if !a.required then "[" else "")
          ++ (if a.last then "-- " else "") ++ key
          ++ (if !a.required then "]" else "") := by
  unfold positionalStep
  rw [h]
  cases hr : a.required <;> cases hl : a.last <;>
    simp [String.append_empty, String.append_assoc]

/-- C5: a positional argument without a declared value name contributes
nothing to the usage fragment and produces no "positional-lines" entry;
one with value name `key` appends, in order, a leading space, an opening
bracket if not required, `"-- "` if flagged last, the value name, and a
closing bracket if not required — so a non-required, non-last positional
named "FILE" contributes exactly `" [FILE]"`. -/
theorem positional_filtering (ps : List Arg) (a : Arg) :
    (a.value_names.head? = none →
      positional_args (ps ++ [a]) = positional_args ps ∧
      positionalLines (ps ++ [a]) = positionalLines ps) ∧
    (∀ key, a.value_names.head? = some key →
      positional_args (ps ++ [a])
        = positional_args ps ++ " " ++ (if !a.required then "[" else "")
            ++ (if a.last then "-- " else "") ++ key
            ++ (if !a.required then "]" else "") ∧
      positionalLines (ps ++ [a])
        = positionalLines ps ++ [positionalSubEnv a key]) ∧
    (a.value_names.head? = some "FILE" → a.required = false →
      a.last = false →
      positional_args (ps ++ [a]) = positional_args ps ++ " [FILE]") := by
  refine ⟨fun h => ⟨?_, ?_⟩, fun key h => ⟨?_, ?_⟩, fun h hr hl => ?_⟩
  · simp [positional_args, List.foldl_append, positionalStep, h]
  · simp [positionalLines, List.filterMap_append, h]
  · simp only [positional_args, List.foldl_append, List.foldl_cons,
      List.foldl_nil]
    exact positionalStep_some _ a key h
  · simp [positionalLines, List.filterMap_append, h]
  · have := positionalStep_some (positional_args ps) a "FILE" h
    simp only [positional_args, List.foldl_append, List.foldl_cons,
      List.foldl_nil] at this ⊢
    rw [this, hr, hl]
    simp [String.append_assoc]

/-- Witness for C5: the concrete non-required positional "FILE"
contributes exactly " [FILE]". -/
theorem positional_filtering_witness :
    positional_args [{ value_names := ["FILE"] }] = " [FILE]" := by
  have h := (positional_filtering [] { value_names := ["FILE"] }).2.2
    rfl rfl rfl
  simpa [positional_args, String.empty_append] using h

/-- C4: an argument with a non-empty default value list gets both the
inline `default` and the block `details-default` variables, markdown-
flagged and back-tick-quoting the default's text form, when its action
stores or appends values; when its action is a boolean flag, neither
variable is set. -/
theorem default_suppression (a : Arg) (d : String)
    (hd : a.default_values.head? = some d) :
    ((a.action = .set ∨ a.action = .append) →
      (optionSubEnv a).lookup "default"
        = some ⟨" Default: `" ++ d ++ "`", true⟩ ∧
      (optionSubEnv a).lookup "details-default"
        = some ⟨"\n    * *Default*: `" ++ d ++ "`", true⟩) ∧
    ((a.action = .setTrue ∨ a.action = .setFalse) →
      (optionSubEnv a).lookup "default" = none ∧
      (optionSubEnv a).lookup "details-default" = none) := by
  constructor <;> rintro (h | h) <;>
    rw [(optionSubEnv_lookup_default a).1, (optionSubEnv_lookup_default a).2] <;>
    simp [defaultSeg, hd, h, List.lookup]

/-- Witness for C4: a value-storing argument with default "42" has both
variables, a boolean flag with the same default has neither. -/
theorem default_suppression_witness :
    ((optionSubEnv { long := some "level", default_values := ["42"], action := .set }).lookup "default"
      = some ⟨" Default: `42`", true⟩) ∧
    ((optionSubEnv { long := some "level", default_values := ["42"], action := .set }).lookup "details-default"
      = some ⟨"\n    * *Default*: `42`", true⟩) ∧
    ((optionSubEnv { long := some "verbose", default_values := ["42"], action := .setTrue }).lookup "default" = none) ∧
    ((optionSubEnv { long := some "verbose", default_values := ["42"], action := .setTrue }).lookup "details-default" = none) := by
  have h1 := (default_suppression
    { long := some "level", default_values := ["42"], action := .set }
    "42" rfl).1 (Or.inl rfl)
  have h2 := (default_suppression
    { long := some "verbose", default_values := ["42"], action := .setTrue }
    "42" rfl).2 (Or.inl rfl)
  exact ⟨h1.1, h1.2, h2.1, h2.2⟩

/-- C6: the number of "option-lines" sub-environments built by
`make_expander` equals exactly the number of arguments that are not
hidden and have at least one of a short or long flag; and a repeating
block over a group expands once per sub-environment of that group, with
zero sub-environments giving zero repetitions, no error and no
placeholder output. -/
theorem group_cardinality (cmd : Cmd) :
    groupSubs (make_expander cmd) "option-lines"
      = cmd.options.map optionSubEnv ∧
    (groupSubs (make_expander cmd) "option-lines").length
      = ((cmd.args.filter (fun a => !a.hide)).filter
          (fun a => a.short.isSome || a.long.isSome)).length ∧
    (∀ (e : Expander) (g : String) (body : List Inline),
      (expandGroup e g body).length = (groupSubs e g).length) ∧
    (∀ (e : Expander) (g : String) (body : List Inline),
      groupSubs e g = [] → expandItem e (.group g body) = "") := by
  have hA : (cmd.options.map
        (fun a => ("option-lines", optionSubEnv a))).filter
        (fun p => p.1 == "option-lines")
      = cmd.options.map (fun a => ("option-lines", optionSubEnv a)) :=
    List.filter_eq_self.mpr (by
      intro p hp
      simp only [List.mem_map] at hp
      obtain ⟨a, _, rfl⟩ := hp
      rfl)
  have hB : (((positionalLines cmd.get_positionals).map
        (fun s => ("positional-lines", s))).filter
        (fun p => p.1 == "option-lines")) = [] :=
    List.filter_eq_nil_iff.mpr (by
      intro p hp
      simp only [List.mem_map] at hp
      obtain ⟨s, _, rfl⟩ := hp
      simp)
  have hC : ((cmd.subcommands.map
        (fun c => ("subcommand-lines", subcommandSubEnv c))).filter
        (fun p => p.1 == "option-lines")) = [] :=
    List.filter_eq_nil_iff.mpr (by
      intro p hp
      simp only [List.mem_map] at hp
      obtain ⟨c, _, rfl⟩ := hp
      simp)
  have hmain : groupSubs (make_expander cmd) "option-lines"
      = cmd.options.map optionSubEnv := by
    simp only [groupSubs, make_expander, List.filter_append, hA, hB, hC,
      List.append_nil, List.map_map]
    simp [Function.comp]
  refine ⟨hmain, ?_, ?_, ?_⟩
  · rw [hmain]
    simp [Cmd.options]
  · intro e g body
    simp [expandGroup]
  · intro e g body h
    simp [expandItem, expandGroup, h, String.join]

/-- Witness for C6: the empty expander has zero "option-lines"
sub-environments, and a repeating block over it produces empty output. -/
theorem group_cardinality_witness :
    groupSubs ({} : Expander) "option-lines" = [] ∧
    expandItem ({} : Expander) (.group "option-lines" [.var "short"]) = "" :=
  ⟨rfl, (group_cardinality { name := "prog" }).2.2.2 {} "option-lines"
    [.var "short"] rfl⟩

/-- A name absent from the sub-environment, the outer scalars and the
default renders as the empty string. -/
theorem resolve_absent (e : Expander) (v : String)
    (hdef : e.default.getD "" = "")
    (hvars : lookupVar e.vars v = none)
    (sub : List (String × VarVal)) (hsub : lookupVar sub v = none) :
    resolve e sub v = "" := by
  simp [resolve, hvars, hsub, hdef]

/-- Inline expansion is unchanged by replacing an absent variable with
the empty literal. -/
theorem expandInline_subst (e : Expander) (v : String)
    (hdef : e.default.getD "" = "")
    (hvars : lookupVar e.vars v = none)
    (sub : List (String × VarVal)) (hsub : lookupVar sub v = none)
    (i : Inline) :
    expandInline e sub (substInline v i) = expandInline e sub i := by
  cases i with
  | lit s => rfl
  | var n =>
    by_cases h : n = v
    · subst h
      simp [substInline, expandInline,
        resolve_absent e n hdef hvars sub hsub]
    · simp [substInline, h, expandInline]

/-- Top-level element expansion is unchanged by replacing an absent
variable with the empty literal. -/
theorem expandItem_subst (e : Expander) (v : String)
    (hdef : e.default.getD "" = "")
    (hvars : lookupVar e.vars v = none)
    (hsubs : ∀ p ∈ e.subs, lookupVar p.2 v = none)
    (it : TItem) :
    expandItem e (substItem v it) = expandItem e it := by
  cases it with
  | lit s => rfl
  | var n =>
    by_cases h : n = v
    · subst h
      simp [substItem, expandItem,
        resolve_absent e n hdef hvars [] rfl]
    · simp [substItem, h, expandItem]
  | group g body =>
    simp only [substItem, expandItem, expandGroup]
    congr 1
    apply List.map_congr_left
    intro sub hsub
    have habs : lookupVar sub v = none := by
      simp only [groupSubs, List.mem_map] at hsub
      obtain ⟨p, hp, rfl⟩ := hsub
      exact hsubs p (List.mem_of_mem_filter hp)
    rw [List.map_map]
    congr 1
    apply List.map_congr_left
    intro i _
    exact expandInline_subst e v hdef hvars sub habs i

/-- C7: expanding a template that references a variable absent from the
environment (from the outer scalars and from every sub-environment, with
the default text empty as `make_expander` sets it) produces exactly the
output of the same template with that reference replaced by the empty
string; expansion never fails. -/
theorem default_to_empty (e : Expander) (v : String) (t : Template)
    (hdef : e.default.getD "" = "")
    (hvars : lookupVar e.vars v = none)
    (hsubs : ∀ p ∈ e.subs, lookupVar p.2 v = none) :
    expandTemplate e (substTemplate v t) = expandTemplate e t := by
  unfold expandTemplate substTemplate
  rw [List.map_map]
  congr 1
  apply List.map_congr_left
  intro it _
  exact expandItem_subst e v hdef hvars hsubs it

/-- Witness for C7 at a concrete environment and template with an absent
variable. -/
theorem default_to_empty_witness :
    (lookupVar egExpander.vars "missing" = none) ∧
    (∀ p ∈ egExpander.subs, lookupVar p.2 "missing" = none) ∧
    expandTemplate egExpander (substTemplate "missing" egTemplate)
      = expandTemplate egExpander egTemplate :=
  ⟨by decide, by decide,
   default_to_empty egExpander "missing" egTemplate rfl (by decide)
     (by decide)⟩

/-- The full-width printing loop emits exactly the templates of the keys
that have a mapping entry, in key order. -/
theorem print_help_full_width_eq {T : Type} (keys : List String)
    (templates : List (String × T)) :
    print_help_full_width keys templates
      = keys.filterMap (fun k => templates.lookup k) := by
  suffices h : ∀ (acc : List T),
      keys.foldl
        (fun acc k =>
          match templates.lookup k with
          | some t => acc ++ [t]
          | none => acc)
        acc
      = acc ++ keys.filterMap (fun k => templates.lookup k) by
    simpa [print_help_full_width] using h []
  induction keys with
  | nil => intro acc; simp
  | cons k ks ih =>
    intro acc
    simp only [List.foldl_cons, List.filterMap_cons]
    cases h : templates.lookup k with
    | none => simp [h, ih]
    | some t => simp [h, ih]

/-- The length of a `filterMap` counts the elements on which the function
succeeds. -/
theorem length_filterMap_eq_length_filter {α β : Type} (f : α → Option β)
    (l : List α) :
    (l.filterMap f).length = (l.filter (fun a => (f a).isSome)).length := by
  induction l with
  | nil => rfl
  | cons a t ih =>
    cases h : f a <;> simp [List.filterMap_cons, List.filter_cons, h, ih]

/-- C2: both rendering modes process sections in exactly the order of the
template keys filtered to keys that have a mapping entry: the full-width
loop emits that filtered sequence (so a key without an entry produces
nothing and no error, and a duplicated key is rendered once per
occurrence), and the content-width pass builds its blocks from the very
same sequence in the same order. -/
theorem render_order_filtered {T : Type} (keys keys₁ keys₂ : List String)
    (templates : List (String × T)) (k : String) (termWidth : Nat)
    (maxWidth : Option Nat) (naturalWidth : T → Nat) :
    print_help_full_width keys templates
      = keys.filterMap (fun k => templates.lookup k) ∧
    (print_help_full_width keys templates).length
      = (keys.filter (fun k => (templates.lookup k).isSome)).length ∧
    print_help_full_width (keys₁ ++ keys₂) templates
      = print_help_full_width keys₁ templates
          ++ print_help_full_width keys₂ templates ∧
    (templates.lookup k = none →
      print_help_full_width [k] templates = []) ∧
    (∀ t, templates.lookup k = some t →
      print_help_full_width [k] templates = [t]) ∧
    (print_help_content_width termWidth maxWidth keys templates
        naturalWidth).map FmtText.content_width
      = (print_help_full_width keys templates).map
          (fun t => min (naturalWidth t)
            (match maxWidth with
             | some m => min termWidth m
             | none => termWidth)) := by
  refine ⟨print_help_full_width_eq keys templates, ?_, ?_, ?_, ?_, ?_⟩
  · rw [print_help_full_width_eq]
    exact length_filterMap_eq_length_filter _ keys
  · simp [print_help_full_width_eq, List.filterMap_append]
  · intro h
    simp [print_help_full_width_eq, h]
  · intro t h
    simp [print_help_full_width_eq, h]
  · rw [print_help_full_width_eq]
    cases maxWidth <;>
      simp [print_help_content_width, fmtText_from_text, List.map_map,
        Function.comp]

/-- Witness for C2: a missing key yields nothing, a duplicated key
renders twice. -/
theorem render_order_filtered_witness :
    print_help_full_width ["title", "nope", "title"]
        [("title", (7 : Nat)), ("usage", 9)] = [7, 7] ∧
    print_help_full_width ["nope"] [("title", (7 : Nat)), ("usage", 9)]
      = [] := by
  constructor
  · rw [(render_order_filtered ["title", "nope", "title"] [] []
      [("title", (7 : Nat)), ("usage", 9)] "x" 0 none (fun _ => 0)).1]
    decide
  · exact (render_order_filtered [] [] []
      [("title", (7 : Nat)), ("usage", 9)] "nope" 0 none
      (fun _ => 0)).2.2.2.1 (by decide)

/-- Every block printed by the content-width pass is re-rendered at the
maximum of all blocks' content widths. -/
theorem content_width_mode_unified {T : Type} (termWidth : Nat)
    (maxWidth : Option Nat) (keys : List String)
    (templates : List (String × T)) (naturalWidth : T → Nat) :
    ∀ b ∈ print_help_content_width termWidth maxWidth keys templates
        naturalWidth,
      b.rendering_width
        = ((print_help_content_width termWidth maxWidth keys templates
            naturalWidth).map FmtText.content_width).foldl max 0 := by
  intro b hb
  simp only [print_help_content_width, List.mem_map, List.map_map] at hb ⊢
  obtain ⟨t, ht, rfl⟩ := hb
  simp [Function.comp, List.foldl_map]

/-- C1: in content-width mode every listed template with a mapping entry
is rendered to a block measured at min(terminal width, max-width if set),
every printed block's rendering width is the maximum of all blocks'
content widths (the unified width), and blocks come out in template-key
order; in full-width mode each block keeps its own natural width under
the terminal cap.  At a 100-column terminal with two blocks of natural
content widths 20 and 60, content-width mode prints both at 60 while
full-width mode prints them at 20 and 60. -/
theorem width_unification {T : Type} (termWidth : Nat)
    (maxWidth : Option Nat) (keys : List String)
    (templates : List (String × T)) (naturalWidth : T → Nat) :
    (∀ b ∈ print_help_content_width termWidth maxWidth keys templates
        naturalWidth,
      b.rendering_width
        = ((print_help_content_width termWidth maxWidth keys templates
            naturalWidth).map FmtText.content_width).foldl max 0) ∧
    ((print_help_content_width 100 none ["first", "second"]
        [("first", (20 : Nat)), ("second", 60)] (fun n => n)).map
        FmtText.rendering_width = [60, 60]) ∧
    (print_help_full_width_widths 100 ["first", "second"]
        [("first", (20 : Nat)), ("second", 60)] (fun n => n) = [20, 60]) :=
  ⟨content_width_mode_unified termWidth maxWidth keys templates
      naturalWidth,
   by decide, by decide⟩

/-- Witness for C1: the 20-column block of the width-unification scenario
is re-rendered at the unified width 60. -/
theorem width_unification_witness :
    (({ content_width := 20, rendering_width := 60 } : FmtText)
        ∈ print_help_content_width 100 none ["first", "second"]
          [("first", (20 : Nat)), ("second", 60)] (fun n => n)) ∧
    ({ content_width := 20, rendering_width := 60 } : FmtText).rendering_width
      = ((print_help_content_width 100 none ["first", "second"]
          [("first", (20 : Nat)), ("second", 60)] (fun n => n)).map
          FmtText.content_width).foldl max 0 :=
  ⟨by decide,
   (width_unification 100 none ["first", "second"]
      [("first", (20 : Nat)), ("second", 60)] (fun n => n)).1 _ (by decide)⟩

end ClapHelp
